import Mathlib

/-!
Shallow embedding of the computational core of `staking-protocol-hc.py`
(class `CompleteStakingHealthCheck`), together with theorems about its
behaviour.

Conventions used throughout:
* Python integers are modelled as `ℤ` / `ℕ`; Python floats are modelled as
  exact rationals `ℚ`.  The lossy `round(x, 2)` calls the source applies when
  building its output dictionaries are binary-float display formatting and are
  not modelled; all stored quantities here are the exact values the source
  computes before that formatting step.
* Network/RPC reads are modelled as oracle parameters of the functions that
  perform them; `none` models a transport failure, a non-200 response, or a
  caught exception, exactly where the source degrades in those cases.
* Python's `random` module (used only by `estimate_transaction_amount`) is
  modelled by an arbitrary generator `g : ℕ → ℕ → ℚ` where `g seed i` is the
  i-th unit sample of the stream obtained after `random.seed(seed)`.
-/

namespace StakingHC

/-- Event kinds passed as `tx_type` to `estimate_transaction_amount`. -/
inductive TxType where
  | stake
  | unstake
  deriving DecidableEq, Repr

/-- Value of one hexadecimal digit, as by Python `int(c, 16)`;
`none` models the `ValueError` raised on a non-hex character. -/
def hexDigitVal (c : Char) : Option ℕ :=
  if '0' ≤ c ∧ c ≤ '9' then some (c.toNat - '0'.toNat)
  else if 'a' ≤ c ∧ c ≤ 'f' then some (c.toNat - 'a'.toNat + 10)
  else if 'A' ≤ c ∧ c ≤ 'F' then some (c.toNat - 'A'.toNat + 10)
  else none

/-- Accumulating helper for `parseHex`. -/
def parseHexAux (acc : ℕ) : List Char → Option ℕ
  | [] => some acc
  | c :: cs =>
    match hexDigitVal c with
    | none => none
    | some v => parseHexAux (16 * acc + v) cs

/-- Python `int(s, 16)` on a digit string; `none` models `ValueError`. -/
def parseHex (cs : List Char) : Option ℕ :=
  parseHexAux 0 cs

/-- The last `n` characters of a string, as Python's slice `s[-n:]`. -/
def lastChars (n : ℕ) (s : String) : List Char :=
  s.toList.drop (s.toList.length - n)

/-- Seed derivation in `estimate_transaction_amount`:
`seed = int(address[-8:], 16) if len(address) >= 8 else 42`.
`none` models the `ValueError` on non-hex characters (callers catch it and
drop the corresponding event). -/
def seedOf (address : String) : Option ℕ :=
  if 8 ≤ address.toList.length then parseHex (lastChars 8 address) else some 42

/-- Python `random.uniform(a, b)` taken at position `i` of the stream seeded
with `seed`: `a + (b - a) · u` with `u` the unit sample. -/
def uniformDraw (g : ℕ → ℕ → ℚ) (seed i : ℕ) (a b : ℚ) : ℚ :=
  a + (b - a) * g seed i

/-- The tiered amount distribution of `estimate_transaction_amount`, after
the seed has been derived: `rand = random.random()` is the first sample of
the seeded stream, and the chosen `random.uniform(...)` call consumes the
second sample.  Tier bounds are the source's literals (0.4/0.7/0.9 for
stakes, 0.3/0.6/0.85 for unstakes). -/
def tierAmount (g : ℕ → ℕ → ℚ) (txType : TxType) (seed : ℕ) : ℚ :=
  let rand := g seed 0
  match txType with
  | .stake =>
    if rand < 2/5 then uniformDraw g seed 1 10000 100000
    else if rand < 7/10 then uniformDraw g seed 1 100000 1000000
    else if rand < 9/10 then uniformDraw g seed 1 1000000 5000000
    else uniformDraw g seed 1 5000000 20000000
  | .unstake =>
    if rand < 3/10 then uniformDraw g seed 1 20000 150000
    else if rand < 3/5 then uniformDraw g seed 1 150000 800000
    else if rand < 17/20 then uniformDraw g seed 1 800000 3000000
    else uniformDraw g seed 1 3000000 15000000

/-- `estimate_transaction_amount(tx_type, address)`: derive a seed from the
low-order 8 hex characters of the sender address and sample the kind-specific
tiered distribution.  `none` models the `ValueError` escape path. -/
def estimate_transaction_amount (g : ℕ → ℕ → ℚ) (txType : TxType)
    (address : String) : Option ℚ :=
  (seedOf address).map (tierAmount g txType)

/-- C9: for a fixed run (fixed generator `g`), the Amount Resolver
`estimate_transaction_amount` is a pure function of the event kind and of the
low-order 8 hex characters of the sender address: any two addresses of length
at least 8 sharing their last 8 characters receive the same estimate, so two
calls with the same `(kind, senderAddress)` pair return the same amount. -/
theorem c9_amount_resolver_deterministic (g : ℕ → ℕ → ℚ) (txType : TxType)
    (a b : String) (ha : 8 ≤ a.toList.length) (hb : 8 ≤ b.toList.length)
    (hlast : lastChars 8 a = lastChars 8 b) :
    estimate_transaction_amount g txType a = estimate_transaction_amount g txType b := by
  unfold estimate_transaction_amount seedOf
  rw [if_pos ha, if_pos hb, hlast]

/-- Witness for C9 at two concrete distinct addresses sharing their low-order
8 hex characters. -/
theorem c9_amount_resolver_deterministic_witness :
    8 ≤ ("0xaaaa12345678" : String).toList.length ∧
    8 ≤ ("0xbbbb12345678" : String).toList.length ∧
    lastChars 8 "0xaaaa12345678" = lastChars 8 "0xbbbb12345678" ∧
    estimate_transaction_amount (fun _ _ => 0) TxType.stake "0xaaaa12345678" =
      estimate_transaction_amount (fun _ _ => 0) TxType.stake "0xbbbb12345678" :=
  ⟨by decide, by decide, by decide,
    c9_amount_resolver_deterministic (fun _ _ => 0) TxType.stake
      "0xaaaa12345678" "0xbbbb12345678" (by decide) (by decide) (by decide)⟩

/-- ASCII lowercase conversion of one character, as Python `str.lower()`
acts on the ASCII strings (hex addresses and call data) handled here. -/
def pyLowerChar (c : Char) : Char :=
  if 'A' ≤ c ∧ c ≤ 'Z' then Char.ofNat (c.toNat + 32) else c

/-- Python `s.lower()` on the ASCII strings handled here. -/
def pyLower (s : String) : String :=
  String.mk (s.toList.map pyLowerChar)

/-- Python `s.startswith(sig)`. -/
def pyStartsWith (s sig : String) : Bool :=
  List.isPrefixOf sig.toList s.toList

/-- A transaction record, holding the fields of the JSON-RPC transaction
dictionaries that the scanners read.  An absent `to` field is modelled by the
empty string, matching `tx.get("to", "")`; likewise `fromAddr` models
`tx.get("from", "")` and `inputData` models `tx.get("input", "")`. -/
structure Tx where
  hash : String
  fromAddr : String
  toAddr : String
  inputData : String
  deriving DecidableEq, Repr

/-- A fetched block: its timestamp (the source parses the hex field with
`int(timestamp_hex, 16)`; we model the already-parsed value) and its
transaction list in array order. -/
structure BlockData where
  timestamp : ℕ
  transactions : List Tx
  deriving DecidableEq, Repr

/-- The event dictionary built by `analyze_stake_transaction`. -/
structure StakeEvent where
  address : String
  transaction_hash : String
  timestamp : ℕ
  signature : String
  estimated_amount : ℚ
  deriving DecidableEq, Repr

/-- The event dictionary built by `analyze_unstake_transaction`. -/
structure UnstakeEvent where
  address : String
  transaction_hash : String
  timestamp : ℕ
  expiry_timestamp : ℤ
  days_remaining : ℤ
  signature : String
  estimated_amount : ℚ
  status : String
  deriving DecidableEq, Repr

/-- `analyze_stake_transaction(tx_data, block_data, signature)`.  The event
timestamp is the block timestamp.  `none` models the `except` branch (the
only failure the embedding can express is the amount resolver's
`ValueError`). -/
def analyze_stake_transaction (g : ℕ → ℕ → ℚ) (tx : Tx) (bd : BlockData)
    (signature : String) : Option StakeEvent :=
  match estimate_transaction_amount g TxType.stake (pyLower tx.fromAddr) with
  | none => none
  | some amt => some {
      address := pyLower tx.fromAddr
      transaction_hash := tx.hash
      timestamp := bd.timestamp
      signature := signature
      estimated_amount := amt }

/-- `analyze_unstake_transaction(tx_data, block_data, signature)` with `now`
the wall-clock Unix time of the run.  `expiry = timestamp + 14 days`;
`days_remaining = (expiry - now).days` where Python's `timedelta.days`
floors, hence `Int.fdiv`; `status` is `"active"` iff `days_remaining > 0`. -/
def analyze_unstake_transaction (g : ℕ → ℕ → ℚ) (now : ℤ) (tx : Tx)
    (bd : BlockData) (signature : String) : Option UnstakeEvent :=
  match estimate_transaction_amount g TxType.unstake (pyLower tx.fromAddr) with
  | none => none
  | some amt =>
    let expiry : ℤ := (bd.timestamp : ℤ) + 14 * 86400
    let days_remaining : ℤ := Int.fdiv (expiry - now) 86400
    some {
      address := pyLower tx.fromAddr
      transaction_hash := tx.hash
      timestamp := bd.timestamp
      expiry_timestamp := expiry
      days_remaining := days_remaining
      signature := signature
      estimated_amount := amt
      status := if days_remaining > 0 then "active" else "expired" }

/-- The signature loop of the scanners: the first selector in `sigs` whose
check `to_address == staking_contract and input_data.startswith(sig)`
succeeds (the loop `break`s at the first match). -/
def findMatchingSig (contract : String) (sigs : List String)
    (toAddr inputData : String) : Option String :=
  sigs.find? (fun s => (toAddr == contract) && pyStartsWith inputData s)

/-- Classification of one transaction in the staking scan: transactions with
no destination are skipped (`if not to_address: continue`), the destination
is lowercased, and on a selector match the event is built (a `None` from
`analyze_stake_transaction` contributes nothing). -/
def classifyStakeTx (g : ℕ → ℕ → ℚ) (contract : String) (sigs : List String)
    (bd : BlockData) (tx : Tx) : Option StakeEvent :=
  if tx.toAddr = "" then none
  else
    match findMatchingSig contract sigs (pyLower tx.toAddr) tx.inputData with
    | none => none
    | some sig => analyze_stake_transaction g tx bd sig

/-- Classification of one transaction in the unstaking scan. -/
def classifyUnstakeTx (g : ℕ → ℕ → ℚ) (now : ℤ) (contract : String)
    (sigs : List String) (bd : BlockData) (tx : Tx) : Option UnstakeEvent :=
  if tx.toAddr = "" then none
  else
    match findMatchingSig contract sigs (pyLower tx.toAddr) tx.inputData with
    | none => none
    | some sig => analyze_unstake_transaction g now tx bd sig

/-- Number of iterations of Python `range(a, b, step)` for positive `step`. -/
def pyRangeLen (a b : ℤ) (step : ℕ) : ℕ :=
  ((b - a).toNat + step - 1) / step

/-- Python `range(a, b, step)` for positive `step`, as the list of visited
values `a, a + step, …` below `b`. -/
def pyRange (a b : ℤ) (step : ℕ) : List ℤ :=
  (List.range (pyRangeLen a b step)).map (fun (i : ℕ) => a + (step : ℤ) * (i : ℤ))

/-- Events contributed by one visited block of the staking scan: a failed
fetch (`chain b = none`, i.e. `get_block_with_transactions` returned `None`)
contributes nothing; otherwise every transaction of the block is classified
in array order. -/
def blockStakeEvents (g : ℕ → ℕ → ℚ) (chain : ℤ → Option BlockData)
    (contract : String) (sigs : List String) (b : ℤ) : List StakeEvent :=
  match chain b with
  | none => []
  | some bd => bd.transactions.filterMap (classifyStakeTx g contract sigs bd)

/-- The staking scan over a list of visited blocks, in block order. -/
def scanStakeEvents (g : ℕ → ℕ → ℚ) (chain : ℤ → Option BlockData)
    (contract : String) (sigs : List String) : List ℤ → List StakeEvent
  | [] => []
  | b :: bs =>
    blockStakeEvents g chain contract sigs b ++
      scanStakeEvents g chain contract sigs bs

/-- Events contributed by one visited block of the unstaking scan. -/
def blockUnstakeEvents (g : ℕ → ℕ → ℚ) (now : ℤ) (chain : ℤ → Option BlockData)
    (contract : String) (sigs : List String) (b : ℤ) : List UnstakeEvent :=
  match chain b with
  | none => []
  | some bd => bd.transactions.filterMap (classifyUnstakeTx g now contract sigs bd)

/-- The unstaking scan over a list of visited blocks, in block order. -/
def scanUnstakeEvents (g : ℕ → ℕ → ℚ) (now : ℤ) (chain : ℤ → Option BlockData)
    (contract : String) (sigs : List String) : List ℤ → List UnstakeEvent
  | [] => []
  | b :: bs =>
    blockUnstakeEvents g now chain contract sigs b ++
      scanUnstakeEvents g now chain contract sigs bs

/-- The dictionary returned by `analyze_staking_events`. -/
structure StakingAnalysis where
  period_days : ℕ
  blocks_scanned : ℕ
  stake_events_found : ℕ
  unique_stakers : ℕ
  total_estimated_stake_amount : ℚ
  daily_average_stakes : ℚ
  daily_average_amount : ℚ
  stake_events : List StakeEvent
  deriving DecidableEq, Repr

/-- The dictionary returned by `analyze_unstaking_events`. -/
structure UnstakingAnalysis where
  period_days : ℕ
  blocks_scanned : ℕ
  unstake_events_found : ℕ
  unique_unstakers : ℕ
  total_estimated_unstake_amount : ℚ
  daily_average_unstakes : ℚ
  daily_average_amount : ℚ
  unstake_events : List UnstakeEvent
  deriving DecidableEq, Repr

/-- `analyze_staking_events(days)`, parametrised by the generator, the chain
oracle, the configured contract and selectors, and `current_block` (the value
`get_latest_block_number` returned).  The scan visits
`range(from_block, current_block, 100)` and adds `step = 100` to
`blocks_scanned` per iteration.  The result is `none` exactly when
`days = 0`, modelling the `ZeroDivisionError` raised by the daily-average
divisions (which happens only after the scan loop has completed). -/
def analyze_staking_events (g : ℕ → ℕ → ℚ) (chain : ℤ → Option BlockData)
    (contract : String) (sigs : List String) (days : ℕ) (current_block : ℤ) :
    Option StakingAnalysis :=
  let from_block : ℤ := max 0 (current_block - days * 43200)
  let blocks := pyRange from_block current_block 100
  let events := scanStakeEvents g chain contract sigs blocks
  let total : ℚ := (events.map (·.estimated_amount)).sum
  if days = 0 then none
  else some {
    period_days := days
    blocks_scanned := 100 * blocks.length
    stake_events_found := events.length
    unique_stakers := ((events.map (·.address)).toFinset).card
    total_estimated_stake_amount := total
    daily_average_stakes := (events.length : ℚ) / days
    daily_average_amount := total / days
    stake_events := events }

/-- `analyze_unstaking_events(days)`, exactly parallel to
`analyze_staking_events` but over the unstake selectors and with the
wall-clock `now` needed for the maturity countdown. -/
def analyze_unstaking_events (g : ℕ → ℕ → ℚ) (now : ℤ)
    (chain : ℤ → Option BlockData) (contract : String) (sigs : List String)
    (days : ℕ) (current_block : ℤ) : Option UnstakingAnalysis :=
  let from_block : ℤ := max 0 (current_block - days * 43200)
  let blocks := pyRange from_block current_block 100
  let events := scanUnstakeEvents g now chain contract sigs blocks
  let total : ℚ := (events.map (·.estimated_amount)).sum
  if days = 0 then none
  else some {
    period_days := days
    blocks_scanned := 100 * blocks.length
    unstake_events_found := events.length
    unique_unstakers := ((events.map (·.address)).toFinset).card
    total_estimated_unstake_amount := total
    daily_average_unstakes := (events.length : ℚ) / days
    daily_average_amount := total / days
    unstake_events := events }

/-- `get_latest_block_number()`: the parsed hex result on a 200 response,
and `0` on a non-200 response or a raised exception (both modelled by
`none`). -/
def get_latest_block_number (response : Option ℕ) : ℕ :=
  match response with
  | some v => v
  | none => 0

/-- Match count of one transaction list as in `count_events_in_period`:
each transaction contributes 1 if it has a destination and some selector in
`sigs` matches (the inner loop `break`s after the first hit). -/
def countTxMatches (contract : String) (sigs : List String)
    (txs : List Tx) : ℕ :=
  (txs.filter (fun tx =>
    (!(tx.toAddr == "")) &&
      (findMatchingSig contract sigs (pyLower tx.toAddr) tx.inputData).isSome)).length

/-- `count_events_in_period(from_block, to_block, signatures)`: visits
`range(from_block, to_block, 200)` and counts selector matches; a failed
block fetch contributes zero. -/
def count_events_in_period (chain : ℤ → Option BlockData) (contract : String)
    (sigs : List String) (from_block to_block : ℤ) : ℕ :=
  ((pyRange from_block to_block 200).map (fun b =>
    match chain b with
    | none => 0
    | some bd => countTxMatches contract sigs bd.transactions)).sum

/-- One entry of the weekly breakdown built by `analyze_weekly_flows`. -/
structure WeeklyBucket where
  week : ℕ
  stake_events : ℕ
  unstake_events : ℕ
  net_events : ℤ
  deriving DecidableEq, Repr

/-- `analyze_weekly_flows(total_days)`: empty when `total_days < 7`;
otherwise `weeks = min(4, total_days // 7)` buckets, built for
`week = 0, …, weeks - 1` over the block sub-ranges
`[current - (week+1)·7·43200, current - week·7·43200)` (so the first bucket
is the most recent week) and labelled `week := weeks - week`. -/
def analyze_weekly_flows (chain : ℤ → Option BlockData) (contract : String)
    (stakeSigs unstakeSigs : List String) (current_block : ℤ)
    (total_days : ℕ) : List WeeklyBucket :=
  if total_days < 7 then []
  else
    let weeks := min 4 (total_days / 7)
    (List.range weeks).map (fun (w : ℕ) =>
      let week_start := current_block - ((w : ℤ) + 1) * 7 * 43200
      let week_end := current_block - (w : ℤ) * 7 * 43200
      let week_stakes := count_events_in_period chain contract stakeSigs week_start week_end
      let week_unstakes := count_events_in_period chain contract unstakeSigs week_start week_end
      { week := weeks - w
        stake_events := week_stakes
        unstake_events := week_unstakes
        net_events := (week_stakes : ℤ) - (week_unstakes : ℤ) })

/-- The trend if-chain of `analyze_staking_flows`, returning the trend label
and `trend_score` (the source's `0.1` and `0.3` literals are `1/10` and
`3/10`). -/
def determineTrend (stake_amount net_amount : ℚ) : String × ℤ :=
  if net_amount > stake_amount * (1/10) then ("STRONG GROWTH", 2)
  else if net_amount > 0 then ("GROWTH", 1)
  else if net_amount > -(stake_amount * (1/10)) then ("STABLE", 0)
  else if net_amount > -(stake_amount * (3/10)) then ("DECLINE", -1)
  else ("STRONG DECLINE", -2)

/-- The flattened content of the dictionary returned by
`analyze_staking_flows` (comparison metrics, daily rates, percentages, trend
analysis, weekly breakdown). -/
structure FlowAnalysis where
  stake_events : ℕ
  unstake_events : ℕ
  net_events : ℤ
  stake_amount : ℚ
  unstake_amount : ℚ
  net_amount : ℚ
  daily_stake_events : ℚ
  daily_unstake_events : ℚ
  daily_stake_amount : ℚ
  daily_unstake_amount : ℚ
  daily_net_amount : ℚ
  stake_event_percentage : ℚ
  unstake_event_percentage : ℚ
  stake_amount_percentage : ℚ
  unstake_amount_percentage : ℚ
  trend : String
  trend_score : ℤ
  net_flow_percentage : ℚ
  weekly_breakdown : List WeeklyBucket
  deriving DecidableEq, Repr

/-- `analyze_staking_flows(staking_data, unstaking_data)`.  `days` is the
staking dictionary's `period_days`; `actual_staked_balance` is the instance
attribute set by the balance phase.  The result is `none` exactly when
`days = 0`, modelling the `ZeroDivisionError` of the daily-rate divisions
(unreachable from `run_complete_analysis`, which would already have raised
inside `analyze_staking_events`). -/
def analyze_staking_flows (chain : ℤ → Option BlockData) (contract : String)
    (stakeSigs unstakeSigs : List String) (actual_staked_balance : ℚ)
    (current_block : ℤ) (staking : StakingAnalysis)
    (unstaking : UnstakingAnalysis) : Option FlowAnalysis :=
  let se := staking.stake_events_found
  let ue := unstaking.unstake_events_found
  let sa := staking.total_estimated_stake_amount
  let ua := unstaking.total_estimated_unstake_amount
  let days := staking.period_days
  let net_amount := sa - ua
  if days = 0 then none
  else some {
    stake_events := se
    unstake_events := ue
    net_events := (se : ℤ) - (ue : ℤ)
    stake_amount := sa
    unstake_amount := ua
    net_amount := net_amount
    daily_stake_events := (se : ℚ) / days
    daily_unstake_events := (ue : ℚ) / days
    daily_stake_amount := sa / days
    daily_unstake_amount := ua / days
    daily_net_amount := net_amount / days
    stake_event_percentage :=
      if 0 < se + ue then ((se : ℚ) / ((se : ℚ) + (ue : ℚ))) * 100 else 0
    unstake_event_percentage :=
      if 0 < se + ue then ((ue : ℚ) / ((se : ℚ) + (ue : ℚ))) * 100 else 0
    stake_amount_percentage :=
      if 0 < sa + ua then (sa / (sa + ua)) * 100 else 0
    unstake_amount_percentage :=
      if 0 < sa + ua then (ua / (sa + ua)) * 100 else 0
    trend := (determineTrend sa net_amount).1
    trend_score := (determineTrend sa net_amount).2
    net_flow_percentage :=
      if 0 < actual_staked_balance then net_amount / actual_staked_balance * 100
      else 0
    weekly_breakdown :=
      analyze_weekly_flows chain contract stakeSigs unstakeSigs current_block days }

/-- The four health factors of `calculate_complete_health_metrics`, in
append order: staking percentage, unstaking incidence, trend score, net-flow
percentage. -/
def healthFactors (staking_percentage unstaking_incidence
    net_flow_percentage : ℚ) (trend_score : ℤ) : List ℤ :=
  let f1 : ℤ :=
    if staking_percentage > 40 then 2
    else if staking_percentage > 20 then 1
    else if staking_percentage > 10 then 0
    else -1
  let f2 : ℤ :=
    if unstaking_incidence < 2 then 2
    else if unstaking_incidence < 5 then 1
    else if unstaking_incidence < 10 then 0
    else -1
  let f4 : ℤ :=
    if net_flow_percentage > 5 then 2
    else if net_flow_percentage > 0 then 1
    else if net_flow_percentage > -5 then 0
    else -1
  [f1, f2, trend_score, f4]

/-- `avg_health_score = sum(health_factors) / len(health_factors)`. -/
def avg_health_score (fs : List ℤ) : ℚ :=
  (fs.sum : ℚ) / (fs.length : ℚ)

/-- The qualitative grade thresholds on the mean factor score. -/
def health_grade (avg : ℚ) : String :=
  if avg ≥ 3/2 then "EXCELLENT"
  else if avg ≥ 1/2 then "GOOD"
  else if avg ≥ -(1/2) then "MODERATE"
  else "CRITICAL"

/-- The health-assessment part of the dictionary returned by
`calculate_complete_health_metrics`. -/
structure HealthMetrics where
  health_factors : List ℤ
  average_score : ℚ
  health_score : String
  deriving DecidableEq, Repr

/-- `calculate_complete_health_metrics`, restricted to the health-assessment
computation: derives unstaking incidence and net-flow percentage (guarded by
`total_staked > 0`, else 0), builds the four factors, and grades their
mean. -/
def calculate_complete_health_metrics (total_staked staking_percentage
    total_unstaking_flow net_flow : ℚ) (trend_score : ℤ) : HealthMetrics :=
  let unstaking_incidence :=
    if total_staked > 0 then total_unstaking_flow / total_staked * 100 else 0
  let net_flow_percentage :=
    if total_staked > 0 then net_flow / total_staked * 100 else 0
  let fs := healthFactors staking_percentage unstaking_incidence
    net_flow_percentage trend_score
  { health_factors := fs
    average_score := avg_health_score fs
    health_score := health_grade (avg_health_score fs) }

/-- The dictionary returned by `get_total_staked_balance`. -/
structure BalanceSnapshot where
  balance_wei : ℚ
  balance_tokens : ℚ
  percentage_of_supply : ℚ
  verification_method : String
  deriving DecidableEq, Repr

/-- `get_total_staked_balance()`.  `balance_wei` is the value returned by
`get_token_balance` (`none` models its `None` on a raised exception; `some 0`
covers a non-200 response or an empty/zero result).  The source's test is
`if balance_wei is not None and balance_wei > 0`; otherwise it falls back to
`estimate_balance_from_activity()` (here the parameter `estimated_balance`)
and marks the snapshot as estimated. -/
def get_total_staked_balance (balance_wei : Option ℤ) (estimated_balance : ℚ)
    (total_supply : ℚ) (token_decimals : ℕ) : BalanceSnapshot :=
  let estimated : BalanceSnapshot := {
    balance_wei := estimated_balance * 10 ^ token_decimals
    balance_tokens := estimated_balance
    percentage_of_supply := estimated_balance / total_supply * 100
    verification_method := "estimated_from_activity" }
  match balance_wei with
  | some w =>
    if 0 < w then
      let balance_tokens : ℚ := (w : ℚ) / 10 ^ token_decimals
      { balance_wei := (w : ℚ)
        balance_tokens := balance_tokens
        percentage_of_supply := balance_tokens / total_supply * 100
        verification_method := "direct_balance_call" }
    else estimated
  | none => estimated

/-- One bucket of the selling-pressure timeline. -/
structure PressureBucket where
  day : ℤ
  amount : ℚ
  count : ℕ
  deriving DecidableEq, Repr

/-- Dictionary update step of `calculate_selling_pressure_timeline`: create
the key's bucket at `amount = 0, count = 0` on first sight (appended in
insertion order, as a Python dict) and add the event's amount and 1. -/
def addPressure : List PressureBucket → ℤ → ℚ → List PressureBucket
  | [], d, a => [{ day := d, amount := 0 + a, count := 0 + 1 }]
  | b :: bs, d, a =>
    if b.day = d then { day := b.day, amount := b.amount + a, count := b.count + 1 } :: bs
    else b :: addPressure bs d a

/-- One iteration of the event loop of
`calculate_selling_pressure_timeline`: events whose `days_remaining` lies in
`[0, 14]` are bucketed (`if 0 <= days_remaining <= 14`); the rest are
ignored. -/
def pressureStep (acc : List PressureBucket) (e : UnstakeEvent) :
    List PressureBucket :=
  if 0 ≤ e.days_remaining ∧ e.days_remaining ≤ 14 then
    addPressure acc e.days_remaining e.estimated_amount
  else acc

/-- The `pressure_by_day` dictionary after the event loop of
`calculate_selling_pressure_timeline`. -/
def pressure_by_day (events : List UnstakeEvent) : List PressureBucket :=
  events.foldl pressureStep []

/-- Comparison by day used by the final `sorted(..., key=lambda x: x['day'])`. -/
def bucketLE (a b : PressureBucket) : Prop :=
  a.day ≤ b.day

instance : DecidableRel bucketLE :=
  fun a b => inferInstanceAs (Decidable (a.day ≤ b.day))

instance : IsTotal PressureBucket bucketLE :=
  ⟨fun a b => le_total a.day b.day⟩

instance : IsTrans PressureBucket bucketLE :=
  ⟨fun _ _ _ h h' => le_trans h h'⟩

/-- `calculate_selling_pressure_timeline(unstake_events)`: bucket by
days-remaining, then sort ascending by day. -/
def calculate_selling_pressure_timeline (events : List UnstakeEvent) :
    List PressureBucket :=
  List.insertionSort bucketLE (pressure_by_day events)

/-- The configuration validation performed by `main()`: the two contract
addresses must be non-empty strings; the `--days` value is accepted
unchecked. -/
def mainAcceptsConfig (staking_contract token_contract : String)
    (_days : ℤ) : Bool :=
  (!(staking_contract == "")) && (!(token_contract == ""))

/-- C3: the Flow Aggregator's trend on aggregated amount totals follows
exactly the documented thresholds: with `net = stakeAmount − unstakeAmount`,
`net > 0.10·stakeAmount` gives STRONG GROWTH, `0 < net ≤ 0.10·stakeAmount`
GROWTH, `−0.10·stakeAmount < net ≤ 0` STABLE,
`−0.30·stakeAmount < net ≤ −0.10·stakeAmount` DECLINE, and otherwise
(`net ≤ −0.30·stakeAmount`) STRONG DECLINE; stake totals are sums of
non-negative estimated amounts, hence the hypothesis `0 ≤ stake_amount`. -/
theorem c3_trend_thresholds (stake_amount unstake_amount : ℚ)
    (hs : 0 ≤ stake_amount) :
    ((determineTrend stake_amount (stake_amount - unstake_amount)).1 = "STRONG GROWTH" ↔
      stake_amount * (1/10) < stake_amount - unstake_amount) ∧
    ((determineTrend stake_amount (stake_amount - unstake_amount)).1 = "GROWTH" ↔
      0 < stake_amount - unstake_amount ∧
        stake_amount - unstake_amount ≤ stake_amount * (1/10)) ∧
    ((determineTrend stake_amount (stake_amount - unstake_amount)).1 = "STABLE" ↔
      -(stake_amount * (1/10)) < stake_amount - unstake_amount ∧
        stake_amount - unstake_amount ≤ 0) ∧
    ((determineTrend stake_amount (stake_amount - unstake_amount)).1 = "DECLINE" ↔
      -(stake_amount * (3/10)) < stake_amount - unstake_amount ∧
        stake_amount - unstake_amount ≤ -(stake_amount * (1/10))) ∧
    ((determineTrend stake_amount (stake_amount - unstake_amount)).1 = "STRONG DECLINE" ↔
      stake_amount - unstake_amount ≤ -(stake_amount * (3/10))) := by
  unfold determineTrend
  split_ifs with h1 h2 h3 h4 <;>
    refine ⟨?_, ?_, ?_, ?_, ?_⟩ <;> simp <;>
      first
        | linarith
        | exact ⟨by linarith, by linarith⟩
        | (intro h; linarith)

/-- Witness for C3 at stake 100, unstake 20 (net 80 above the 10% line). -/
theorem c3_trend_thresholds_witness :
    (0 : ℚ) ≤ 100 ∧ (determineTrend 100 (100 - 20)).1 = "STRONG GROWTH" :=
  ⟨by norm_num, (c3_trend_thresholds 100 20 (by norm_num)).1.mpr (by norm_num)⟩

/-- C4: every `FlowComparison` produced by `analyze_staking_flows` satisfies
`net_amount = stake_amount − unstake_amount`; the stake and unstake event
percentages sum to 100 whenever some event was counted, and are both 0 when
both counts are zero. -/
theorem c4_flow_comparison (chain : ℤ → Option BlockData) (contract : String)
    (stakeSigs unstakeSigs : List String) (bal : ℚ) (current : ℤ)
    (staking : StakingAnalysis) (unstaking : UnstakingAnalysis)
    (F : FlowAnalysis)
    (hF : analyze_staking_flows chain contract stakeSigs unstakeSigs bal
      current staking unstaking = some F) :
    F.net_amount = F.stake_amount - F.unstake_amount ∧
    (0 < F.stake_events + F.unstake_events →
      F.stake_event_percentage + F.unstake_event_percentage = 100) ∧
    (F.stake_events = 0 → F.unstake_events = 0 →
      F.stake_event_percentage = 0 ∧ F.unstake_event_percentage = 0) := by
  by_cases hd : staking.period_days = 0
  · simp [analyze_staking_flows, hd] at hF
  · simp only [analyze_staking_flows, hd, if_false, ite_false, if_neg,
      Option.some.injEq] at hF
    rcases hF with rfl
    refine ⟨rfl, ?_, ?_⟩
    · intro hpos
      have hpos' : 0 < staking.stake_events_found + unstaking.unstake_events_found :=
        hpos
      have h0 : (0 : ℚ) <
          (staking.stake_events_found : ℚ) + (unstaking.unstake_events_found : ℚ) := by
        exact_mod_cast hpos'
      dsimp only
      rw [if_pos hpos', if_pos hpos']
      field_simp
      ring
    · intro h1 h2
      have h1' : staking.stake_events_found = 0 := h1
      have h2' : unstaking.unstake_events_found = 0 := h2
      dsimp only
      simp [h1', h2']

/-- Sample staking dictionary used by witnesses: 1 event, amount 5, over a
3-day window. -/
def sampleStaking : StakingAnalysis :=
  { period_days := 3, blocks_scanned := 0, stake_events_found := 1,
    unique_stakers := 1, total_estimated_stake_amount := 5,
    daily_average_stakes := 1/3, daily_average_amount := 5/3,
    stake_events := [] }

/-- Sample unstaking dictionary used by witnesses: 1 event, amount 3, over a
3-day window. -/
def sampleUnstaking : UnstakingAnalysis :=
  { period_days := 3, blocks_scanned := 0, unstake_events_found := 1,
    unique_unstakers := 1, total_estimated_unstake_amount := 3,
    daily_average_unstakes := 1/3, daily_average_amount := 1,
    unstake_events := [] }

/-- The flow-analysis output on the sample dictionaries. -/
def sampleFlow : FlowAnalysis :=
  { stake_events := 1, unstake_events := 1, net_events := 0,
    stake_amount := 5, unstake_amount := 3, net_amount := 2,
    daily_stake_events := 1/3, daily_unstake_events := 1/3,
    daily_stake_amount := 5/3, daily_unstake_amount := 1,
    daily_net_amount := 2/3,
    stake_event_percentage := 50, unstake_event_percentage := 50,
    stake_amount_percentage := 125/2, unstake_amount_percentage := 75/2,
    trend := "STRONG GROWTH", trend_score := 2, net_flow_percentage := 0,
    weekly_breakdown := [] }

/-- Witness for C4 on the sample flow comparison. -/
theorem c4_flow_comparison_witness :
    sampleFlow.net_amount = sampleFlow.stake_amount - sampleFlow.unstake_amount ∧
    sampleFlow.stake_event_percentage + sampleFlow.unstake_event_percentage = 100 :=
  ⟨(c4_flow_comparison (fun _ => none) "c" [] [] 0 0 sampleStaking
      sampleUnstaking sampleFlow (by norm_num [analyze_staking_flows,
        sampleStaking, sampleUnstaking, sampleFlow, determineTrend,
        analyze_weekly_flows])).1,
   (c4_flow_comparison (fun _ => none) "c" [] [] 0 0 sampleStaking
      sampleUnstaking sampleFlow (by norm_num [analyze_staking_flows,
        sampleStaking, sampleUnstaking, sampleFlow, determineTrend,
        analyze_weekly_flows])).2.1 (by norm_num [sampleFlow])⟩

/-- C8: the Balance Verifier marks the snapshot as estimated (and uses the
caller-supplied estimation value) exactly when the direct read errored
(`none`) or returned a non-positive value; a positive direct read is marked
direct with the decimal-adjusted balance; and in every branch the
percentage-of-supply is `balance_tokens / total_supply × 100`. -/
theorem c8_balance_verifier (bw : Option ℤ) (est supply : ℚ) (dec : ℕ) :
    (get_total_staked_balance bw est supply dec).percentage_of_supply =
      (get_total_staked_balance bw est supply dec).balance_tokens / supply * 100 ∧
    ((bw = none ∨ ∃ w, bw = some w ∧ w ≤ 0) →
      (get_total_staked_balance bw est supply dec).verification_method =
        "estimated_from_activity" ∧
      (get_total_staked_balance bw est supply dec).balance_tokens = est) ∧
    (∀ w : ℤ, bw = some w → 0 < w →
      (get_total_staked_balance bw est supply dec).verification_method =
        "direct_balance_call" ∧
      (get_total_staked_balance bw est supply dec).balance_tokens =
        (w : ℚ) / 10 ^ dec) := by
  cases bw with
  | none =>
    refine ⟨rfl, fun _ => ⟨rfl, rfl⟩, ?_⟩
    intro w hw
    exact absurd hw (by simp)
  | some w =>
    by_cases hw : 0 < w
    · simp only [get_total_staked_balance]
      rw [if_pos hw]
      refine ⟨rfl, ?_, ?_⟩
      · rintro (h | ⟨w', hw', hle⟩)
        · exact absurd h (by simp)
        · obtain rfl : w = w' := Option.some.inj hw'
          omega
      · intro w' hw' _
        obtain rfl : w = w' := Option.some.inj hw'
        exact ⟨rfl, rfl⟩
    · simp only [get_total_staked_balance]
      rw [if_neg hw]
      refine ⟨rfl, fun _ => ⟨rfl, rfl⟩, ?_⟩
      intro w' hw' hpos
      obtain rfl : w = w' := Option.some.inj hw'
      exact absurd hpos hw

/-- Witness for C8: a positive direct read of 5 wei (0 decimals) and a
failed read with estimate 7. -/
theorem c8_balance_verifier_witness :
    ((get_total_staked_balance (some 5) 7 100 0).verification_method =
        "direct_balance_call" ∧
      (get_total_staked_balance (some 5) 7 100 0).balance_tokens =
        ((5 : ℤ) : ℚ) / 10 ^ 0) ∧
    ((get_total_staked_balance none 7 100 0).verification_method =
        "estimated_from_activity" ∧
      (get_total_staked_balance none 7 100 0).balance_tokens = 7) :=
  ⟨(c8_balance_verifier (some 5) 7 100 0).2.2 5 rfl (by norm_num),
   (c8_balance_verifier none 7 100 0).2.1 (Or.inl rfl)⟩

/-- C5 (code bug): `main()` accepts a configuration with `days = 0` — its
validation only requires the two contract addresses to be non-empty — and the
event scans then fail with the daily-average division by zero (`none` here
models the `ZeroDivisionError` raised at
`daily_average_stakes = len(stake_events) / days`), instead of the
configuration being rejected before scanning. -/
theorem c5_days_zero_not_validated :
    mainAcceptsConfig "0xstakingcontract" "0xtokencontract" 0 = true ∧
    analyze_staking_events (fun _ _ => 0) (fun _ => none)
      "0xstakingcontract" [] 0 150 = none ∧
    analyze_unstaking_events (fun _ _ => 0) 0 (fun _ => none)
      "0xstakingcontract" [] 0 150 = none := by
  refine ⟨rfl, ?_, ?_⟩ <;> decide

/-- The threshold factors of `healthFactors` (positions 0, 1 and 3) each lie
in {-1, 0, 1, 2}, and position 2 is the trend score verbatim. -/
theorem healthFactors_shape (sp ui nfp : ℚ) (ts : ℤ) :
    ∃ f1 ∈ ([-1, 0, 1, 2] : List ℤ), ∃ f2 ∈ ([-1, 0, 1, 2] : List ℤ),
      ∃ f4 ∈ ([-1, 0, 1, 2] : List ℤ),
        healthFactors sp ui nfp ts = [f1, f2, ts, f4] := by
  simp only [healthFactors]
  refine ⟨_, ?_, _, ?_, _, ?_, rfl⟩ <;> (split_ifs <;> decide)

/-- The grade if-chain of `calculate_complete_health_metrics`, as mutually
exclusive threshold bands on the mean score. -/
theorem health_grade_cases (avg : ℚ) :
    (health_grade avg = "EXCELLENT" ↔ 3/2 ≤ avg) ∧
    (health_grade avg = "GOOD" ↔ 1/2 ≤ avg ∧ avg < 3/2) ∧
    (health_grade avg = "MODERATE" ↔ -(1/2) ≤ avg ∧ avg < 1/2) ∧
    (health_grade avg = "CRITICAL" ↔ avg < -(1/2)) := by
  unfold health_grade
  split_ifs with h1 h2 h3 <;> refine ⟨?_, ?_, ?_, ?_⟩ <;> simp <;>
    first
      | linarith
      | exact ⟨by linarith, by linarith⟩
      | (intro h; linarith)

/-- The trend score produced by `determineTrend` always lies in
{-2, -1, 0, 1, 2}. -/
theorem trendScore_mem (sa net : ℚ) :
    (determineTrend sa net).2 ∈ ([-2, -1, 0, 1, 2] : List ℤ) := by
  unfold determineTrend
  split_ifs <;> simp

/-- C2 counterexample: the claim that every health factor lies in
{-1, 0, 1, 2} — including the trend factor — is false: the Flow Aggregator
produces `trend_score = -2` (STRONG DECLINE, here from stake total 100
against unstake total 200), and `calculate_complete_health_metrics` copies
that score verbatim into the factor list, where -2 is outside {-1, 0, 1, 2}. -/
theorem c2_trend_factor_counterexample :
    (analyze_staking_flows (fun _ => none) "c" [] [] 0 0
        { sampleStaking with total_estimated_stake_amount := 100 }
        { sampleUnstaking with total_estimated_unstake_amount := 200 }).map
      (fun F => F.trend_score) = some (-2) ∧
    (-2 : ℤ) ∈ (calculate_complete_health_metrics 1000 50 10 (-100)
      (-2)).health_factors ∧
    (-2 : ℤ) ∉ ([-1, 0, 1, 2] : List ℤ) := by
  refine ⟨?_, ?_, by decide⟩
  · norm_num [analyze_staking_flows, sampleStaking, sampleUnstaking,
      determineTrend, analyze_weekly_flows]
  · norm_num [calculate_complete_health_metrics, healthFactors]

/-- C2 (amended): every run's health-factor list has exactly 4 entries; the
staking-share, unstaking-incidence and net-flow factors each lie in
{-1, 0, 1, 2}; the third entry is the flow trend score verbatim, which lies
in {-2, -1, 0, 1, 2} (it is -2 for STRONG DECLINE, outside the claimed
range); and the qualitative grade is determined from the arithmetic mean of
the four factors by the thresholds 1.5 / 0.5 / -0.5. -/
theorem c2_health_metrics_amended (total_staked sp uflow nflow : ℚ) (ts : ℤ) :
    (calculate_complete_health_metrics total_staked sp uflow nflow
      ts).health_factors.length = 4 ∧
    (∃ f1 ∈ ([-1, 0, 1, 2] : List ℤ), ∃ f2 ∈ ([-1, 0, 1, 2] : List ℤ),
      ∃ f4 ∈ ([-1, 0, 1, 2] : List ℤ),
        (calculate_complete_health_metrics total_staked sp uflow nflow
          ts).health_factors = [f1, f2, ts, f4]) ∧
    (∀ (chain : ℤ → Option BlockData) (contract : String)
        (ss us : List String) (bal : ℚ) (cur : ℤ) (S : StakingAnalysis)
        (U : UnstakingAnalysis) (F : FlowAnalysis),
      analyze_staking_flows chain contract ss us bal cur S U = some F →
        F.trend_score ∈ ([-2, -1, 0, 1, 2] : List ℤ)) ∧
    (calculate_complete_health_metrics total_staked sp uflow nflow
        ts).average_score =
      ((calculate_complete_health_metrics total_staked sp uflow nflow
        ts).health_factors.sum : ℚ) / 4 ∧
    ((calculate_complete_health_metrics total_staked sp uflow nflow
        ts).health_score = "EXCELLENT" ↔
      3/2 ≤ (calculate_complete_health_metrics total_staked sp uflow nflow
        ts).average_score) ∧
    ((calculate_complete_health_metrics total_staked sp uflow nflow
        ts).health_score = "GOOD" ↔
      1/2 ≤ (calculate_complete_health_metrics total_staked sp uflow nflow
        ts).average_score ∧
      (calculate_complete_health_metrics total_staked sp uflow nflow
        ts).average_score < 3/2) ∧
    ((calculate_complete_health_metrics total_staked sp uflow nflow
        ts).health_score = "MODERATE" ↔
      -(1/2) ≤ (calculate_complete_health_metrics total_staked sp uflow nflow
        ts).average_score ∧
      (calculate_complete_health_metrics total_staked sp uflow nflow
        ts).average_score < 1/2) ∧
    ((calculate_complete_health_metrics total_staked sp uflow nflow
        ts).health_score = "CRITICAL" ↔
      (calculate_complete_health_metrics total_staked sp uflow nflow
        ts).average_score < -(1/2)) := by
  have hgrade := health_grade_cases (avg_health_score (healthFactors sp
    (if total_staked > 0 then uflow / total_staked * 100 else 0)
    (if total_staked > 0 then nflow / total_staked * 100 else 0) ts))
  refine ⟨rfl, ?_, ?_, ?_, hgrade.1, hgrade.2.1, hgrade.2.2.1, hgrade.2.2.2⟩
  · exact healthFactors_shape sp _ _ ts
  · intro chain contract ss us bal cur S U F hF
    by_cases hd : S.period_days = 0
    · simp [analyze_staking_flows, hd] at hF
    · simp only [analyze_staking_flows, hd, if_false, ite_false, if_neg,
        Option.some.injEq] at hF
      rcases hF with rfl
      exact trendScore_mem _ _
  · simp [calculate_complete_health_metrics, avg_health_score, healthFactors]

/-- Witness for C2 on a concrete run: factors [2, 2, -2, -1], mean 1/4,
grade MODERATE; and the sample flow's trend score lies in the amended
range. -/
theorem c2_health_metrics_amended_witness :
    ((-(1/2) : ℚ) ≤ (calculate_complete_health_metrics 1000 50 10 (-100)
        (-2)).average_score ∧
      (calculate_complete_health_metrics 1000 50 10 (-100)
        (-2)).average_score < 1/2) ∧
    (calculate_complete_health_metrics 1000 50 10 (-100)
      (-2)).health_score = "MODERATE" ∧
    sampleFlow.trend_score ∈ ([-2, -1, 0, 1, 2] : List ℤ) :=
  have havg : (-(1/2) : ℚ) ≤ (calculate_complete_health_metrics 1000 50 10
      (-100) (-2)).average_score ∧
      (calculate_complete_health_metrics 1000 50 10 (-100)
        (-2)).average_score < 1/2 := by
    constructor <;>
      norm_num [calculate_complete_health_metrics, healthFactors,
        avg_health_score]
  ⟨havg,
   ((c2_health_metrics_amended 1000 50 10 (-100) (-2)).2.2.2.2.2.2.1).mpr havg,
   (c2_health_metrics_amended 0 0 0 0 0).2.2.1 (fun _ => none) "c" [] [] 0 0
     sampleStaking sampleUnstaking sampleFlow (by norm_num
       [analyze_staking_flows, sampleStaking, sampleUnstaking, sampleFlow,
        determineTrend, analyze_weekly_flows])⟩

/-- C7: the weekly breakdown is empty when `windowDays < 7`; otherwise it
has exactly `min(4, windowDays // 7)` buckets, and the bucket at position
`i` covers the `i`-th most recent 7-day block sub-range (so the most recent
week comes first) and carries week label `weeks − i` (labels ascend with
chronological age re-indexed so the oldest bucket is week 1). -/
theorem c7_weekly_breakdown (chain : ℤ → Option BlockData) (contract : String)
    (stakeSigs unstakeSigs : List String) (current : ℤ) (days : ℕ) :
    (days < 7 →
      analyze_weekly_flows chain contract stakeSigs unstakeSigs current days = []) ∧
    (7 ≤ days →
      (analyze_weekly_flows chain contract stakeSigs unstakeSigs current
        days).length = min 4 (days / 7) ∧
      (∀ i : ℕ, i < min 4 (days / 7) →
        (analyze_weekly_flows chain contract stakeSigs unstakeSigs current
          days)[i]? = some {
            week := min 4 (days / 7) - i
            stake_events := count_events_in_period chain contract stakeSigs
              (current - ((i : ℤ) + 1) * 7 * 43200)
              (current - (i : ℤ) * 7 * 43200)
            unstake_events := count_events_in_period chain contract unstakeSigs
              (current - ((i : ℤ) + 1) * 7 * 43200)
              (current - (i : ℤ) * 7 * 43200)
            net_events := (count_events_in_period chain contract stakeSigs
              (current - ((i : ℤ) + 1) * 7 * 43200)
              (current - (i : ℤ) * 7 * 43200) : ℤ) -
              (count_events_in_period chain contract unstakeSigs
                (current - ((i : ℤ) + 1) * 7 * 43200)
                (current - (i : ℤ) * 7 * 43200) : ℤ) })) := by
  constructor
  · intro h
    simp [analyze_weekly_flows, h]
  · intro h
    have hnot : ¬ days < 7 := not_lt.mpr h
    constructor
    · simp [analyze_weekly_flows, hnot]
    · intro i hi
      simp [analyze_weekly_flows, hnot, List.getElem?_map,
        List.getElem?_range, hi]

/-- Witness for C7: an out-of-range window of 3 days gives the empty
breakdown, and a 14-day window gives `min(4, 2) = 2` buckets. -/
theorem c7_weekly_breakdown_witness :
    analyze_weekly_flows (fun _ => none) "c" [] [] 0 3 = [] ∧
    (analyze_weekly_flows (fun _ => none) "c" [] [] 0 14).length = min 4 (14 / 7) :=
  ⟨(c7_weekly_breakdown (fun _ => none) "c" [] [] 0 3).1 (by norm_num),
   ((c7_weekly_breakdown (fun _ => none) "c" [] [] 0 14).2 (by norm_num)).1⟩

/-- Iteration count of a ceiling division range: `k` is a valid iteration
index iff `step · k` still lies below `D`. -/
theorem nat_lt_ceilDiv_iff (D step k : ℕ) (hstep : 0 < step) :
    k < (D + step - 1) / step ↔ step * k < D := by
  rw [Nat.lt_iff_add_one_le, Nat.le_div_iff_mul_le hstep]
  have h1 : (k + 1) * step = step * k + step := by ring
  rw [h1]
  generalize step * k = m
  omega

/-- Characterisation of the iteration count of `pyRange`. -/
theorem lt_pyRangeLen_iff (a b : ℤ) (step k : ℕ) (hstep : 0 < step) :
    k < pyRangeLen a b step ↔ (step : ℤ) * (k : ℤ) < b - a := by
  unfold pyRangeLen
  rw [nat_lt_ceilDiv_iff _ _ _ hstep, Int.lt_toNat]
  push_cast
  exact Iff.rfl

/-- Membership in `pyRange a b step`: exactly the values `a + step · k`
below `b`. -/
theorem mem_pyRange (a b : ℤ) (step : ℕ) (hstep : 0 < step) (x : ℤ) :
    x ∈ pyRange a b step ↔ ∃ k : ℕ, x = a + step * k ∧ x < b := by
  unfold pyRange
  constructor
  · intro hx
    obtain ⟨k, hk, hfk⟩ := List.mem_map.1 hx
    have hk' := (lt_pyRangeLen_iff a b step k hstep).1 (List.mem_range.1 hk)
    exact ⟨k, hfk.symm, by omega⟩
  · rintro ⟨k, rfl, hx⟩
    exact List.mem_map.2 ⟨k, List.mem_range.2
      ((lt_pyRangeLen_iff a b step k hstep).2 (by omega)), rfl⟩

/-- An event is produced by the staking scan iff some visited block
produces it. -/
theorem mem_scanStakeEvents (g : ℕ → ℕ → ℚ) (chain : ℤ → Option BlockData)
    (contract : String) (sigs : List String) (blocks : List ℤ)
    (e : StakeEvent) :
    e ∈ scanStakeEvents g chain contract sigs blocks ↔
      ∃ b ∈ blocks, e ∈ blockStakeEvents g chain contract sigs b := by
  induction blocks with
  | nil => simp [scanStakeEvents]
  | cons b bs ih =>
    simp only [scanStakeEvents, List.mem_append, ih, List.mem_cons]
    constructor
    · rintro (h | ⟨b', hb', he⟩)
      · exact ⟨b, Or.inl rfl, h⟩
      · exact ⟨b', Or.inr hb', he⟩
    · rintro ⟨b', rfl | hb', he⟩
      · exact Or.inl he
      · exact Or.inr ⟨b', hb', he⟩

/-- C1 (amended): the staking Window Scanner visits exactly the blocks
`from_block + 100·k` below `current_block` (one block fetch per 100-block
step — not every block of the range), classifies every transaction of every
visited block (each classified match lands in the event list), and reports
`blocks_scanned = 100 × (number of blocks actually fetched)` — the step
size times the fetch count, not the fetch count itself.  The reported event
count and amount total are the length and amount sum of the collected
events. -/
theorem c1_window_scanner_amended (g : ℕ → ℕ → ℚ)
    (chain : ℤ → Option BlockData) (contract : String) (sigs : List String)
    (days : ℕ) (current : ℤ) (A : StakingAnalysis)
    (hA : analyze_staking_events g chain contract sigs days current = some A) :
    A.blocks_scanned =
      100 * (pyRange (max 0 (current - days * 43200)) current 100).length ∧
    (∀ x : ℤ, x ∈ pyRange (max 0 (current - days * 43200)) current 100 ↔
      ∃ k : ℕ, x = max 0 (current - days * 43200) + 100 * k ∧ x < current) ∧
    (∀ b ∈ pyRange (max 0 (current - days * 43200)) current 100,
      ∀ bd, chain b = some bd → ∀ tx ∈ bd.transactions, ∀ e,
        classifyStakeTx g contract sigs bd tx = some e →
          e ∈ A.stake_events) ∧
    A.stake_events_found = A.stake_events.length ∧
    A.total_estimated_stake_amount =
      (A.stake_events.map (fun e => e.estimated_amount)).sum := by
  by_cases hd : days = 0
  · simp [analyze_staking_events, hd] at hA
  · simp only [analyze_staking_events, hd, if_false, ite_false, if_neg,
      Option.some.injEq] at hA
    rcases hA with rfl
    refine ⟨rfl, ?_, ?_, rfl, rfl⟩
    · intro x
      exact mem_pyRange _ _ 100 (by norm_num) x
    · intro b hb bd hbd tx htx e he
      show e ∈ scanStakeEvents g chain contract sigs _
      rw [mem_scanStakeEvents]
      refine ⟨b, hb, ?_⟩
      unfold blockStakeEvents
      rw [hbd]
      exact List.mem_filterMap.mpr ⟨tx, htx, he⟩

/-- C1 counterexample: on the range `[0, 150)` (current block 150, 1-day
window) the scanner fetches only blocks 0 and 100 — block 1 of the range is
never fetched — and reports `blocks_scanned = 200`, which differs from the
2 blocks actually fetched; so neither "fetches every block in the range"
nor "blocks-scanned equals the number of blocks fetched" holds. -/
theorem c1_window_scanner_counterexample :
    (analyze_staking_events (fun _ _ => 0) (fun _ => none) "c" [] 1 150).map
      (fun A => A.blocks_scanned) = some 200 ∧
    pyRange (max 0 (150 - (1 : ℕ) * 43200)) 150 100 = [0, 100] ∧
    ((0 : ℤ) ≤ 1 ∧ (1 : ℤ) < 150) ∧
    (1 : ℤ) ∉ pyRange (max 0 (150 - (1 : ℕ) * 43200)) 150 100 ∧
    (200 : ℕ) ≠ (pyRange (max 0 (150 - (1 : ℕ) * 43200)) 150 100).length := by
  refine ⟨?_, by decide, by decide, by decide, by decide⟩
  have h : analyze_staking_events (fun _ _ => 0) (fun _ => none) "c" [] 1 150 =
      some { period_days := 1
             blocks_scanned :=
               100 * (pyRange (max 0 (150 - ((1 : ℕ) : ℤ) * 43200)) 150 100).length
             stake_events_found := 0
             unique_stakers := 0
             total_estimated_stake_amount := (0 : ℚ)
             daily_average_stakes := ((0 : ℕ) : ℚ) / ((1 : ℕ) : ℚ)
             daily_average_amount := (0 : ℚ) / ((1 : ℕ) : ℚ)
             stake_events := [] } := rfl
  rw [h]
  have hlen : (pyRange (max 0 (150 - ((1 : ℕ) : ℤ) * 43200)) 150 100).length = 2 := by
    decide
  show some (100 * (pyRange (max 0 (150 - ((1 : ℕ) : ℤ) * 43200)) 150 100).length) =
    some 200
  rw [hlen]

/-- Generator used by scanner witnesses: every unit sample is 0. -/
def witnessG : ℕ → ℕ → ℚ := fun _ _ => 0

/-- A staking transaction to the configured contract. -/
def witnessTx : Tx :=
  { hash := "0xh1", fromAddr := "0xDEADBEEF", toAddr := "0xSTK",
    inputData := "0xa694fc3a0000" }

/-- A block containing the witness transaction. -/
def witnessBlock : BlockData :=
  { timestamp := 1000, transactions := [witnessTx] }

/-- A chain oracle returning the witness block for every height. -/
def witnessChain : ℤ → Option BlockData := fun _ => some witnessBlock

/-- The stake event the scanner builds from the witness transaction
(seed 3735928559 = 0xdeadbeef, the low-order 8 hex chars of the sender). -/
def witnessStakeEvent : StakeEvent :=
  { address := "0xdeadbeef", transaction_hash := "0xh1", timestamp := 1000,
    signature := "0xa694fc3a",
    estimated_amount := tierAmount witnessG TxType.stake 3735928559 }

/-- The staking analysis over current block 150, 1-day window, on the
witness chain: blocks 0 and 100 are fetched, each contributing one event. -/
def witnessAnalysis : StakingAnalysis :=
  { period_days := 1
    blocks_scanned :=
      100 * (pyRange (max 0 (150 - ((1 : ℕ) : ℤ) * 43200)) 150 100).length
    stake_events_found := 2
    unique_stakers := (["0xdeadbeef", "0xdeadbeef"] : List String).toFinset.card
    total_estimated_stake_amount :=
      tierAmount witnessG TxType.stake 3735928559 +
        (tierAmount witnessG TxType.stake 3735928559 + 0)
    daily_average_stakes := ((2 : ℕ) : ℚ) / ((1 : ℕ) : ℚ)
    daily_average_amount :=
      (tierAmount witnessG TxType.stake 3735928559 +
        (tierAmount witnessG TxType.stake 3735928559 + 0)) / ((1 : ℕ) : ℚ)
    stake_events := [witnessStakeEvent, witnessStakeEvent] }

/-- Witness for C1 on the witness chain: the classified transaction of the
fetched block 0 appears in the event list, and the reported blocks-scanned
figure is 100 times the fetch count. -/
theorem c1_window_scanner_amended_witness :
    witnessStakeEvent ∈ witnessAnalysis.stake_events ∧
    witnessAnalysis.blocks_scanned =
      100 * (pyRange (max 0 (150 - ((1 : ℕ) : ℤ) * 43200)) 150 100).length :=
  have happ := c1_window_scanner_amended witnessG witnessChain "0xstk"
    ["0xa694fc3a"] 1 150 witnessAnalysis rfl
  ⟨happ.2.2.1 0 (by decide) witnessBlock rfl witnessTx (by decide)
      witnessStakeEvent rfl,
   happ.1⟩

/-- C10: when the latest-block read fails, `get_latest_block_number`
returns 0 and both event scans run over the empty range `[max(0, −w), 0)`,
completing normally with zero blocks scanned, no events, zero totals and
zero unique addresses; the flow comparison over those empty analyses also
completes, reporting zero counts and amounts. -/
theorem c10_latest_block_failure (g : ℕ → ℕ → ℚ) (now : ℤ)
    (chain : ℤ → Option BlockData) (contract : String)
    (stakeSigs unstakeSigs : List String) (bal : ℚ) (days : ℕ)
    (hd : 0 < days) :
    get_latest_block_number none = 0 ∧
    analyze_staking_events g chain contract stakeSigs days
        ((get_latest_block_number none : ℕ) : ℤ) =
      some { period_days := days, blocks_scanned := 0, stake_events_found := 0,
             unique_stakers := 0, total_estimated_stake_amount := 0,
             daily_average_stakes := 0, daily_average_amount := 0,
             stake_events := [] } ∧
    analyze_unstaking_events g now chain contract unstakeSigs days
        ((get_latest_block_number none : ℕ) : ℤ) =
      some { period_days := days, blocks_scanned := 0, unstake_events_found := 0,
             unique_unstakers := 0, total_estimated_unstake_amount := 0,
             daily_average_unstakes := 0, daily_average_amount := 0,
             unstake_events := [] } ∧
    (analyze_staking_flows chain contract stakeSigs unstakeSigs bal
        ((get_latest_block_number none : ℕ) : ℤ)
        { period_days := days, blocks_scanned := 0, stake_events_found := 0,
          unique_stakers := 0, total_estimated_stake_amount := 0,
          daily_average_stakes := 0, daily_average_amount := 0,
          stake_events := [] }
        { period_days := days, blocks_scanned := 0, unstake_events_found := 0,
          unique_unstakers := 0, total_estimated_unstake_amount := 0,
          daily_average_unstakes := 0, daily_average_amount := 0,
          unstake_events := [] }).map
      (fun F => (F.stake_events, F.unstake_events, F.stake_amount,
        F.unstake_amount, F.net_amount)) = some (0, 0, 0, 0, 0) := by
  have hd' : days ≠ 0 := Nat.pos_iff_ne_zero.mp hd
  have hmul : (0 : ℤ) ≤ (days : ℤ) * 43200 := by positivity
  have hfrom : max (0 : ℤ) (0 - (days : ℤ) * 43200) = 0 :=
    max_eq_left (by omega)
  have hrange : pyRange 0 0 100 = [] := by decide
  refine ⟨rfl, ?_, ?_, ?_⟩
  · simp [analyze_staking_events, get_latest_block_number, hd', hfrom,
      hrange, scanStakeEvents]
  · simp [analyze_unstaking_events, get_latest_block_number, hd', hfrom,
      hrange, scanUnstakeEvents]
  · simp [analyze_staking_flows, hd']

/-- Witness for C10 with a 14-day window. -/
theorem c10_latest_block_failure_witness :
    analyze_staking_events (fun _ _ => 0) (fun _ => none) "c" [] 14
        ((get_latest_block_number none : ℕ) : ℤ) =
      some { period_days := 14, blocks_scanned := 0, stake_events_found := 0,
             unique_stakers := 0, total_estimated_stake_amount := 0,
             daily_average_stakes := 0, daily_average_amount := 0,
             stake_events := [] } :=
  (c10_latest_block_failure (fun _ _ => 0) 0 (fun _ => none) "c" [] [] 0 14
    (by norm_num)).2.1

/-- Whether an unstake event is active (days remaining in `[0, 14]`) with
exactly the given days-remaining value — the membership condition of one
pressure bucket. -/
def pressureKeep (d : ℤ) (e : UnstakeEvent) : Bool :=
  decide (0 ≤ e.days_remaining) && decide (e.days_remaining ≤ 14) &&
    decide (e.days_remaining = d)

/-- Total amount of the events belonging to the bucket of day `d`. -/
def pressureAmount (evs : List UnstakeEvent) (d : ℤ) : ℚ :=
  ((evs.filter (pressureKeep d)).map (fun e => e.estimated_amount)).sum

/-- Number of events belonging to the bucket of day `d`. -/
def pressureCount (evs : List UnstakeEvent) (d : ℤ) : ℕ :=
  (evs.filter (pressureKeep d)).length

/-- The first bucket with the given day, as read back from the dictionary
representation. -/
def findDay (bs : List PressureBucket) (d : ℤ) : Option PressureBucket :=
  bs.find? (fun b => b.day == d)

/-- Amount stored in the bucket of day `d` (0 when the day is absent). -/
def dayAmount (bs : List PressureBucket) (d : ℤ) : ℚ :=
  match findDay bs d with
  | none => 0
  | some b => b.amount

/-- Count stored in the bucket of day `d` (0 when the day is absent). -/
def dayCount (bs : List PressureBucket) (d : ℤ) : ℕ :=
  match findDay bs d with
  | none => 0
  | some b => b.count

/-- Whether the dictionary has a bucket for day `d`. -/
def hasDayB (bs : List PressureBucket) (d : ℤ) : Bool :=
  (findDay bs d).isSome

/-- Updating day `d` adds the amount to `d`'s bucket. -/
theorem dayAmount_addPressure_self (bs : List PressureBucket) (d : ℤ) (a : ℚ) :
    dayAmount (addPressure bs d a) d = dayAmount bs d + a := by
  induction bs with
  | nil => simp [addPressure, dayAmount, findDay]
  | cons b bs ih =>
    by_cases h : b.day = d
    · simp [addPressure, dayAmount, findDay, h]
    · simpa [addPressure, dayAmount, findDay, h] using ih

/-- Updating day `d` increments `d`'s bucket count. -/
theorem dayCount_addPressure_self (bs : List PressureBucket) (d : ℤ) (a : ℚ) :
    dayCount (addPressure bs d a) d = dayCount bs d + 1 := by
  induction bs with
  | nil => simp [addPressure, dayCount, findDay]
  | cons b bs ih =>
    by_cases h : b.day = d
    · simp [addPressure, dayCount, findDay, h]
    · simpa [addPressure, dayCount, findDay, h] using ih

/-- Updating day `d` leaves every other day's bucket untouched. -/
theorem findDay_addPressure_ne (bs : List PressureBucket) (d d' : ℤ) (a : ℚ)
    (h : d' ≠ d) :
    findDay (addPressure bs d a) d' = findDay bs d' := by
  induction bs with
  | nil =>
    have hf : (d == d') = false := by rw [beq_eq_false_iff_ne]; omega
    simp [addPressure, findDay, hf]
  | cons b bs ih =>
    by_cases hb : b.day = d
    · subst hb
      have hf : (b.day == d') = false := by rw [beq_eq_false_iff_ne]; omega
      simp [addPressure, findDay, List.find?_cons, hf]
    · simp only [addPressure, if_neg hb, findDay, List.find?_cons]
      by_cases hb' : b.day = d'
      · simp [hb']
      · have hf : (b.day == d') = false := beq_eq_false_iff_ne.2 hb'
        simp only [hf]
        simpa [findDay] using ih

/-- Updating day `d` makes `d` present. -/
theorem hasDayB_addPressure_self (bs : List PressureBucket) (d : ℤ) (a : ℚ) :
    hasDayB (addPressure bs d a) d = true := by
  induction bs with
  | nil => simp [addPressure, hasDayB, findDay]
  | cons b bs ih =>
    by_cases h : b.day = d
    · simp [addPressure, hasDayB, findDay, h]
    · simpa [addPressure, hasDayB, findDay, h] using ih

/-- The day list after an update: unchanged when the day was present,
extended by the new day (at the end, as Python dict insertion order) when it
was absent. -/
theorem days_addPressure (bs : List PressureBucket) (d : ℤ) (a : ℚ) :
    (addPressure bs d a).map (fun b => b.day) =
      if hasDayB bs d then bs.map (fun b => b.day)
      else bs.map (fun b => b.day) ++ [d] := by
  induction bs with
  | nil => simp [addPressure, hasDayB, findDay]
  | cons b bs ih =>
    by_cases h : b.day = d
    · simp [addPressure, hasDayB, findDay, h]
    · have hf : (b.day == d) = false := beq_eq_false_iff_ne.2 h
      simp only [addPressure, if_neg h, List.map_cons, ih, hasDayB, findDay,
        List.find?_cons, hf]
      by_cases hs : (List.find? (fun b => b.day == d) bs).isSome
      · simp [hs]
      · simp only [Bool.not_eq_true] at hs
        simp [hs]

/-- A day is present iff it occurs in the day list. -/
theorem hasDayB_iff_mem (bs : List PressureBucket) (d : ℤ) :
    hasDayB bs d = true ↔ d ∈ bs.map (fun b => b.day) := by
  simp only [hasDayB, findDay, List.find?_isSome, List.mem_map, beq_iff_eq]

/-- Unfolding of the bucket-membership test. -/
theorem pressureKeep_iff (d : ℤ) (e : UnstakeEvent) :
    pressureKeep d e = true ↔
      0 ≤ e.days_remaining ∧ e.days_remaining ≤ 14 ∧ e.days_remaining = d := by
  simp [pressureKeep, and_assoc]

/-- An event not belonging to day `d` leaves day `d`'s bucket unchanged. -/
theorem findDay_pressureStep_of_not_keep (acc : List PressureBucket)
    (e : UnstakeEvent) (d : ℤ) (h : pressureKeep d e = false) :
    findDay (pressureStep acc e) d = findDay acc d := by
  unfold pressureStep
  by_cases hin : 0 ≤ e.days_remaining ∧ e.days_remaining ≤ 14
  · rw [if_pos hin]
    have h' : ¬(0 ≤ e.days_remaining ∧ e.days_remaining ≤ 14 ∧
        e.days_remaining = d) := by
      rw [← pressureKeep_iff, h]
      simp
    have hd : d ≠ e.days_remaining := by
      intro hd'
      exact h' ⟨hin.1, hin.2, hd'.symm⟩
    exact findDay_addPressure_ne acc e.days_remaining d e.estimated_amount hd
  · rw [if_neg hin]

/-- Invariant of the event loop: after folding `evs` into `acc`, day `d`'s
bucket holds the accumulator's amount/count plus the amount/count of the
events of `evs` belonging to day `d`, and day `d` is present iff it was
present before or some folded event belongs to it. -/
theorem pressure_loop (evs : List UnstakeEvent) (acc : List PressureBucket)
    (d : ℤ) :
    dayAmount (evs.foldl pressureStep acc) d =
      dayAmount acc d + pressureAmount evs d ∧
    dayCount (evs.foldl pressureStep acc) d =
      dayCount acc d + pressureCount evs d ∧
    (hasDayB (evs.foldl pressureStep acc) d = true ↔
      hasDayB acc d = true ∨ ∃ e ∈ evs, pressureKeep d e = true) := by
  induction evs generalizing acc with
  | nil => simp [pressureAmount, pressureCount]
  | cons e es ih =>
    simp only [List.foldl_cons]
    obtain ⟨ihA, ihC, ihH⟩ := ih (pressureStep acc e)
    by_cases hk : pressureKeep d e = true
    · have hd : e.days_remaining = d := ((pressureKeep_iff d e).1 hk).2.2
      have hin : 0 ≤ e.days_remaining ∧ e.days_remaining ≤ 14 :=
        ⟨((pressureKeep_iff d e).1 hk).1, ((pressureKeep_iff d e).1 hk).2.1⟩
      have hstep : pressureStep acc e = addPressure acc d e.estimated_amount := by
        unfold pressureStep
        rw [if_pos hin, hd]
      refine ⟨?_, ?_, ?_⟩
      · rw [ihA, hstep, dayAmount_addPressure_self]
        have hcons : pressureAmount (e :: es) d =
            e.estimated_amount + pressureAmount es d := by
          simp [pressureAmount, List.filter_cons, hk]
        rw [hcons]
        ring
      · rw [ihC, hstep, dayCount_addPressure_self]
        have hcons : pressureCount (e :: es) d = pressureCount es d + 1 := by
          simp [pressureCount, List.filter_cons, hk]
        omega
      · rw [ihH, hstep]
        constructor
        · intro _
          exact Or.inr ⟨e, List.mem_cons_self e es, hk⟩
        · intro _
          exact Or.inl (hasDayB_addPressure_self acc d e.estimated_amount)
    · have hk' : pressureKeep d e = false := by
        rwa [Bool.not_eq_true] at hk
      have hfd := findDay_pressureStep_of_not_keep acc e d hk'
      have hA : dayAmount (pressureStep acc e) d = dayAmount acc d := by
        unfold dayAmount
        rw [hfd]
      have hC : dayCount (pressureStep acc e) d = dayCount acc d := by
        unfold dayCount
        rw [hfd]
      have hH : hasDayB (pressureStep acc e) d = hasDayB acc d := by
        unfold hasDayB
        rw [hfd]
      refine ⟨?_, ?_, ?_⟩
      · rw [ihA, hA]
        have hcons : pressureAmount (e :: es) d = pressureAmount es d := by
          simp [pressureAmount, List.filter_cons, hk']
        rw [hcons]
      · rw [ihC, hC]
        have hcons : pressureCount (e :: es) d = pressureCount es d := by
          simp [pressureCount, List.filter_cons, hk']
        rw [hcons]
      · rw [ihH, hH]
        constructor
        · rintro (h | ⟨e', he', hke⟩)
          · exact Or.inl h
          · exact Or.inr ⟨e', List.mem_cons_of_mem e he', hke⟩
        · rintro (h | ⟨e', he', hke⟩)
          · exact Or.inl h
          · rcases List.mem_cons.1 he' with rfl | he''
            · rw [hke] at hk'
              cases hk'
            · exact Or.inr ⟨e', he'', hke⟩

/-- The event loop keeps the bucket days distinct. -/
theorem nodup_days_foldl (evs : List UnstakeEvent) (acc : List PressureBucket)
    (hacc : (acc.map (fun b => b.day)).Nodup) :
    ((evs.foldl pressureStep acc).map (fun b => b.day)).Nodup := by
  induction evs generalizing acc with
  | nil => simpa using hacc
  | cons e es ih =>
    simp only [List.foldl_cons]
    apply ih
    unfold pressureStep
    by_cases hin : 0 ≤ e.days_remaining ∧ e.days_remaining ≤ 14
    · rw [if_pos hin, days_addPressure]
      by_cases hs : hasDayB acc e.days_remaining = true
      · simpa [hs] using hacc
      · have hs' : e.days_remaining ∉ acc.map (fun b => b.day) := by
          rw [← hasDayB_iff_mem]
          simpa using hs
        rw [if_neg (by simpa using hs)]
        simp [List.nodup_append, hacc, hs']
    · rw [if_neg hin]
      exact hacc

/-- With distinct days, looking up a member bucket's day finds that
bucket. -/
theorem findDay_eq_of_mem (bs : List PressureBucket)
    (hnd : (bs.map (fun b => b.day)).Nodup) (b : PressureBucket)
    (hb : b ∈ bs) :
    findDay bs b.day = some b := by
  induction bs with
  | nil => cases hb
  | cons b' bs ih =>
    have hnd' : b'.day ∉ bs.map (fun b => b.day) ∧
        (bs.map (fun b => b.day)).Nodup := by
      constructor
      · exact (List.nodup_cons.1 (by simpa using hnd)).1
      · exact (List.nodup_cons.1 (by simpa using hnd)).2
    rcases List.mem_cons.1 hb with rfl | hb'
    · simp [findDay, List.find?_cons]
    · have hne : (b'.day == b.day) = false := by
        rw [beq_eq_false_iff_ne]
        intro hEq
        exact hnd'.1 (hEq ▸ List.mem_map.2 ⟨b, hb', rfl⟩)
      simp only [findDay, List.find?_cons, hne]
      exact ih hnd'.2 hb'

/-- C6: the selling-pressure timeline has exactly one bucket per distinct
days-remaining value in `[0, 14]` observed among the events (bucket days are
distinct, and a day has a bucket iff some event carries it within range);
each bucket's amount and count are the sum and number of the events with
that days-remaining value; events outside `[0, 14]` are excluded (every
bucket day is witnessed by an in-range event); and the buckets are sorted
ascending by day. -/
theorem c6_pressure_timeline (evs : List UnstakeEvent) :
    ((calculate_selling_pressure_timeline evs).map (fun b => b.day)).Nodup ∧
    List.Sorted bucketLE (calculate_selling_pressure_timeline evs) ∧
    (∀ b ∈ calculate_selling_pressure_timeline evs,
      (0 ≤ b.day ∧ b.day ≤ 14) ∧
      b.amount = pressureAmount evs b.day ∧
      b.count = pressureCount evs b.day) ∧
    (∀ d : ℤ,
      (∃ e ∈ evs, 0 ≤ e.days_remaining ∧ e.days_remaining ≤ 14 ∧
        e.days_remaining = d) ↔
      ∃ b ∈ calculate_selling_pressure_timeline evs, b.day = d) := by
  have hfold : pressure_by_day evs = evs.foldl pressureStep [] := rfl
  have hperm : List.Perm (calculate_selling_pressure_timeline evs)
      (pressure_by_day evs) :=
    List.perm_insertionSort bucketLE (pressure_by_day evs)
  have hnodup_pb : ((pressure_by_day evs).map (fun b => b.day)).Nodup :=
    nodup_days_foldl evs [] (by simp)
  have hmem : ∀ b, b ∈ calculate_selling_pressure_timeline evs ↔
      b ∈ pressure_by_day evs :=
    fun b => hperm.mem_iff
  refine ⟨?_, ?_, ?_, ?_⟩
  · exact ((hperm.map (fun b => b.day)).nodup_iff).2 hnodup_pb
  · exact List.sorted_insertionSort bucketLE (pressure_by_day evs)
  · intro b hb
    have hbpb : b ∈ pressure_by_day evs := (hmem b).1 hb
    have hfd : findDay (pressure_by_day evs) b.day = some b :=
      findDay_eq_of_mem _ hnodup_pb b hbpb
    obtain ⟨hA, hC, hH⟩ := pressure_loop evs [] b.day
    rw [← hfold] at hA hC hH
    have hamt : b.amount = pressureAmount evs b.day := by
      have h1 : dayAmount (pressure_by_day evs) b.day = b.amount := by
        unfold dayAmount
        rw [hfd]
      have h0 : dayAmount [] b.day = 0 := by simp [dayAmount, findDay]
      rw [h0, zero_add] at hA
      rw [← h1, hA]
    have hcnt : b.count = pressureCount evs b.day := by
      have h1 : dayCount (pressure_by_day evs) b.day = b.count := by
        unfold dayCount
        rw [hfd]
      have h0 : dayCount [] b.day = 0 := by simp [dayCount, findDay]
      rw [h0, Nat.zero_add] at hC
      rw [← h1, hC]
    have hpresent : hasDayB (pressure_by_day evs) b.day = true := by
      unfold hasDayB
      rw [hfd]
      rfl
    rcases hH.1 hpresent with h | ⟨e, _, hke⟩
    · simp [hasDayB, findDay] at h
    · obtain ⟨h1, h2, h3⟩ := (pressureKeep_iff _ e).1 hke
      exact ⟨⟨h3 ▸ h1, h3 ▸ h2⟩, hamt, hcnt⟩
  · intro d
    obtain ⟨hA, hC, hH⟩ := pressure_loop evs [] d
    rw [← hfold] at hA hC hH
    constructor
    · rintro ⟨e, he, h1, h2, h3⟩
      have hpresent : hasDayB (pressure_by_day evs) d = true :=
        hH.2 (Or.inr ⟨e, he, (pressureKeep_iff d e).2 ⟨h1, h2, h3⟩⟩)
      obtain ⟨b, hb⟩ := Option.isSome_iff_exists.1 hpresent
      have hbmem : b ∈ pressure_by_day evs := List.mem_of_find?_eq_some hb
      have hbd : b.day = d := by simpa using List.find?_some hb
      exact ⟨b, (hmem b).2 hbmem, hbd⟩
    · rintro ⟨b, hb, rfl⟩
      have hbpb : b ∈ pressure_by_day evs := (hmem b).1 hb
      have hfd : findDay (pressure_by_day evs) b.day = some b :=
        findDay_eq_of_mem _ hnodup_pb b hbpb
      have hpresent : hasDayB (pressure_by_day evs) b.day = true := by
        unfold hasDayB
        rw [hfd]
        rfl
      rcases hH.1 hpresent with h | ⟨e, he, hke⟩
      · simp [hasDayB, findDay] at h
      · obtain ⟨h1, h2, h3⟩ := (pressureKeep_iff _ e).1 hke
        exact ⟨e, he, h1, h2, h3⟩

/-- A concrete unstake event for the pressure-timeline witness. -/
def mkUnstake (d : ℤ) (a : ℚ) : UnstakeEvent :=
  { address := "0xaddr", transaction_hash := "0xh", timestamp := 0,
    expiry_timestamp := 0, days_remaining := d, signature := "0xs",
    estimated_amount := a, status := "active" }

/-- Concrete event list: days 5, 3, 3 in range and one event (day 20) out of
range. -/
def witnessUnstakes : List UnstakeEvent :=
  [mkUnstake 5 10, mkUnstake 3 7, mkUnstake 3 1, mkUnstake 20 100]

/-- Witness for C6: day 3 is observed among the witness events, so the
timeline has a bucket for it. -/
theorem c6_pressure_timeline_witness :
    ∃ b ∈ calculate_selling_pressure_timeline witnessUnstakes, b.day = 3 :=
  ((c6_pressure_timeline witnessUnstakes).2.2.2 3).1
    ⟨mkUnstake 3 7, by decide, by decide, by decide, by decide⟩

end StakingHC
